import Mathlib

/-!
Verification of the e-tendering evaluation pipeline.

This file gives a shallow embedding of the pipeline implemented in
`backend/app/services/ai_evaluator.py`, `backend/app/services/document_processor.py`
and the evaluation-listing route in `backend/app/api/routes/organization.py`,
and proves the behavioural claims about it.

Conventions of the embedding:
* Python JSON values are the inductive type `Json`; numbers are rationals
  (`ℚ`), which model both Python ints and the decimal values produced by
  `round(x, 2)` exactly.
* `json.loads` is modelled by the executable recursive-descent `loads` below
  (objects keep insertion order; a duplicated key overwrites in place, as for
  a Python dict built by repeated assignment).
* Python code that can raise is embedded in `Except String`; a `.error` value
  is a raised exception, `.ok` a normal return.
* Python string slicing/stripping is modelled by explicit `List Char`
  operations (`pyTake`, `pyDrop`, `pyStrip`, ...).
-/

/-- JSON values as produced by Python `json.loads`: `None`, `bool`, numbers
(modelled as `ℚ`), strings, lists, and insertion-ordered dicts. -/
inductive Json where
  | null : Json
  | bool (b : Bool) : Json
  | num (q : ℚ) : Json
  | str (s : String) : Json
  | arr (elems : List Json) : Json
  | obj (members : List (String × Json)) : Json

/-- The whitespace characters stripped by Python `str.strip()` (ASCII part). -/
def isPyWs (c : Char) : Bool :=
  c == ' ' || c == '\t' || c == '\n' || c == '\r' || c == '\x0b' || c == '\x0c'

/-- The whitespace accepted between JSON tokens by `json.loads`. -/
def isJsonWs (c : Char) : Bool :=
  c == ' ' || c == '\t' || c == '\n' || c == '\r'

/-- Skip JSON inter-token whitespace. -/
def skipWs : List Char → List Char
  | [] => []
  | c :: cs => if isJsonWs c then skipWs cs else c :: cs

/-- Drop the literal `lit` from the front of `cs`, or fail. -/
def dropLit : List Char → List Char → Option (List Char)
  | [], cs => some cs
  | _ :: _, [] => none
  | l :: ls, c :: cs => if c == l then dropLit ls cs else none

/-- Accumulate a run of decimal digits, returning the value and the rest. -/
def digitsVal (acc : Nat) : List Char → Nat × List Char
  | [] => (acc, [])
  | c :: cs => if c.isDigit then digitsVal (acc * 10 + (c.toNat - 48)) cs else (acc, c :: cs)

/-- Value of one hexadecimal digit. -/
def hexDigitVal (c : Char) : Option Nat :=
  if c.isDigit then some (c.toNat - 48)
  else if 'a' ≤ c ∧ c ≤ 'f' then some (c.toNat - 87)
  else if 'A' ≤ c ∧ c ≤ 'F' then some (c.toNat - 55)
  else none

/-- Parse a JSON number (integer part, optional fraction, optional exponent),
assuming the first character is a digit or a minus sign. -/
def parseNum (cs : List Char) : Except String (ℚ × List Char) :=
  let p := match cs with
    | '-' :: r => (true, r)
    | _ => (false, cs)
  match p.2 with
  | c :: _ =>
    if c.isDigit then
      let ipRest := digitsVal 0 p.2
      let fracRest : ℚ × List Char := match ipRest.2 with
        | '.' :: r =>
          let fv := digitsVal 0 r
          let k := r.length - fv.2.length
          ((fv.1 : ℚ) / (10 : ℚ) ^ k, fv.2)
        | other => (0, other)
      let expRest : ℚ × List Char := match fracRest.2 with
        | 'e' :: r | 'E' :: r =>
          let q := match r with
            | '-' :: r2 => (true, r2)
            | '+' :: r2 => (false, r2)
            | _ => (false, r)
          let ev := digitsVal 0 q.2
          (if q.1 then (1 : ℚ) / (10 : ℚ) ^ ev.1 else (10 : ℚ) ^ ev.1, ev.2)
        | other => (1, other)
      let mag : ℚ := ((ipRest.1 : ℚ) + fracRest.1) * expRest.1
      .ok ((if p.1 then -mag else mag), expRest.2)
    else .error "Expecting value"
  | [] => .error "Expecting value"

/-- Parse the body of a JSON string (after the opening quote), fuel-bounded. -/
def parseStr : Nat → List Char → List Char → Except String (String × List Char)
  | 0, _, _ => .error "Unterminated string"
  | _ + 1, _, [] => .error "Unterminated string"
  | n + 1, acc, c :: cs =>
    if c == '"' then .ok (String.mk acc.reverse, cs)
    else if c == '\\' then
      match cs with
      | [] => .error "Unterminated string"
      | e :: cs2 =>
        if e == '"' then parseStr n ('"' :: acc) cs2
        else if e == '\\' then parseStr n ('\\' :: acc) cs2
        else if e == '/' then parseStr n ('/' :: acc) cs2
        else if e == 'b' then parseStr n ('\x08' :: acc) cs2
        else if e == 'f' then parseStr n ('\x0c' :: acc) cs2
        else if e == 'n' then parseStr n ('\n' :: acc) cs2
        else if e == 'r' then parseStr n ('\r' :: acc) cs2
        else if e == 't' then parseStr n ('\t' :: acc) cs2
        else if e == 'u' then
          match cs2 with
          | h1 :: h2 :: h3 :: h4 :: cs3 =>
            match hexDigitVal h1, hexDigitVal h2, hexDigitVal h3, hexDigitVal h4 with
            | some a, some b, some c2, some d =>
              parseStr n (Char.ofNat (((a * 16 + b) * 16 + c2) * 16 + d) :: acc) cs3
            | _, _, _, _ => .error "Invalid hex escape"
          | _ => .error "Invalid hex escape"
        else .error "Invalid escape"
    else parseStr n (c :: acc) cs

/-- Insert into an insertion-ordered dict: an existing key is overwritten in
place, a new key is appended at the end (Python dict assignment). -/
def objInsert (kvs : List (String × Json)) (k : String) (v : Json) : List (String × Json) :=
  if kvs.any (fun p => p.1 == k) then kvs.map (fun p => if p.1 == k then (p.1, v) else p)
  else kvs ++ [(k, v)]

mutual

/-- Parse one JSON value, fuel-bounded. -/
def parseVal : Nat → List Char → Except String (Json × List Char)
  | 0, _ => .error "Expecting value"
  | n + 1, cs =>
    match skipWs cs with
    | [] => .error "Expecting value"
    | c :: rest =>
      if c == 'n' then
        match dropLit ['u', 'l', 'l'] rest with
        | some r => .ok (.null, r)
        | none => .error "Expecting value"
      else if c == 't' then
        match dropLit ['r', 'u', 'e'] rest with
        | some r => .ok (.bool true, r)
        | none => .error "Expecting value"
      else if c == 'f' then
        match dropLit ['a', 'l', 's', 'e'] rest with
        | some r => .ok (.bool false, r)
        | none => .error "Expecting value"
      else if c == '"' then
        match parseStr n [] rest with
        | .ok p => .ok (.str p.1, p.2)
        | .error e => .error e
      else if c == '[' then
        match skipWs rest with
        | ']' :: r => .ok (.arr [], r)
        | r => parseElems n r []
      else if c == '\x7b' then
        match skipWs rest with
        | '\x7d' :: r => .ok (.obj [], r)
        | r => parseMembers n r []
      else if c == '-' || c.isDigit then
        match parseNum (c :: rest) with
        | .ok p => .ok (.num p.1, p.2)
        | .error e => .error e
      else .error "Expecting value"

/-- Parse the remaining elements of a JSON array, fuel-bounded. -/
def parseElems : Nat → List Char → List Json → Except String (Json × List Char)
  | 0, _, _ => .error "Expecting value"
  | n + 1, cs, acc =>
    match parseVal n cs with
    | .error e => .error e
    | .ok (v, cs1) =>
      match skipWs cs1 with
      | ',' :: r => parseElems n r (acc ++ [v])
      | ']' :: r => .ok (.arr (acc ++ [v]), r)
      | _ => .error "Expecting comma"

/-- Parse the remaining members of a JSON object, fuel-bounded. -/
def parseMembers : Nat → List Char → List (String × Json) → Except String (Json × List Char)
  | 0, _, _ => .error "Expecting property name"
  | n + 1, cs, acc =>
    match skipWs cs with
    | '"' :: r =>
      match parseStr n [] r with
      | .error e => .error e
      | .ok (k, cs1) =>
        match skipWs cs1 with
        | ':' :: cs2 =>
          match parseVal n cs2 with
          | .error e => .error e
          | .ok (v, cs3) =>
            match skipWs cs3 with
            | ',' :: r2 => parseMembers n r2 (objInsert acc k v)
            | '\x7d' :: r2 => .ok (.obj (objInsert acc k v), r2)
            | _ => .error "Expecting comma"
        | _ => .error "Expecting colon"
    | _ => .error "Expecting property name"

end

/-- Model of Python `json.loads`: parse a complete JSON document; leftover
non-whitespace input is an error. A `.error` is a `json.JSONDecodeError`. -/
def loads (s : String) : Except String Json :=
  match parseVal (s.length + 1) s.toList with
  | .ok (v, rest) =>
    match skipWs rest with
    | [] => .ok v
    | _ => .error "Extra data"
  | .error e => .error e

/-! ## Python string primitives used by `_parse_evaluation`

`pyStrip` is `str.strip()`, `pyTake n` is `s[:n]`, `pyDrop n` is `s[n:]`,
`pyDropRight n` is `s[:-n]` (for `n ≤ len s`), `pyStarts`/`pyEnds` are
`str.startswith`/`str.endswith`, and `pyInStr` is the substring test
`needle in hay`. -/

/-- Python `str.strip()` with no argument: remove leading and trailing
whitespace. -/
def pyStrip (s : String) : String :=
  String.mk (((s.toList.dropWhile isPyWs).reverse.dropWhile isPyWs).reverse)

/-- Python slice `s[:n]` for `n ≥ 0`. -/
def pyTake (n : Nat) (s : String) : String := String.mk (s.toList.take n)

/-- Python slice `s[n:]` for `n ≥ 0`. -/
def pyDrop (n : Nat) (s : String) : String := String.mk (s.toList.drop n)

/-- Python slice `s[:-n]`, used only when `len(s) ≥ n`. -/
def pyDropRight (n : Nat) (s : String) : String := String.mk (s.toList.take (s.toList.length - n))

/-- Python `s.startswith(pre)`. -/
def pyStarts (pre s : String) : Bool := (dropLit pre.toList s.toList).isSome

/-- Python `s.endswith(suf)`. -/
def pyEnds (suf s : String) : Bool := (dropLit suf.toList.reverse s.toList.reverse).isSome

/-- Substring test on character lists: some suffix of `hay` starts with
`needle`. -/
def listHasSub (needle : List Char) : List Char → Bool
  | [] => (dropLit needle []).isSome
  | c :: t => (dropLit needle (c :: t)).isSome || listHasSub needle t

/-- Python substring membership `needle in hay` for strings. -/
def pyInStr (needle hay : String) : Bool := listHasSub needle.toList hay.toList

/-! ## Dynamic (duck-typed) operations of the normalizer

`_parse_evaluation` manipulates the value returned by `json.loads` with
`in`, `[...]` indexing, `.get(...)` and arithmetic; each of these raises a
`TypeError`/`AttributeError` on values of the wrong shape.  They are embedded
as `Except String` computations; `.error` is a raised exception that the
(`json.JSONDecodeError`-only) handler of `_parse_evaluation` does not catch. -/

/-- Python `needle in v` for a string `needle` and a decoded JSON value `v`:
key test on dicts, substring test on strings, element test on lists
(a `str` compares equal only to an equal `str`), `TypeError` otherwise. -/
def pyIn (needle : String) : Json → Except String Bool
  | .obj kvs => .ok (List.lookup needle kvs).isSome
  | .str s => .ok (pyInStr needle s)
  | .arr xs => .ok (xs.any fun j => match j with | .str t => t == needle | _ => false)
  | _ => .error "TypeError: argument is not iterable"

/-- Python `v[key]` for a string key: dict lookup; `TypeError` on any
non-dict (string and list indices must be integers). -/
def pyIndex (v : Json) (key : String) : Except String Json :=
  match v with
  | .obj kvs =>
    match List.lookup key kvs with
    | some x => .ok x
    | none => .error "KeyError"
  | _ => .error "TypeError: indices must be integers"

/-- Python `v.get(key, dflt)`: only dicts have `.get`; anything else raises
`AttributeError`. -/
def pyGet (v : Json) (key : String) (dflt : Json) : Except String Json :=
  match v with
  | .obj kvs => .ok ((List.lookup key kvs).getD dflt)
  | _ => .error "AttributeError: no attribute get"

/-- Numeric coercion performed by Python arithmetic (`score * 0.5`):
numbers are used as such, `True`/`False` count as `1`/`0`, anything else
raises `TypeError`. -/
def pyNum : Json → Except String ℚ
  | .num q => .ok q
  | .bool b => .ok (if b then 1 else 0)
  | _ => .error "TypeError: unsupported operand type"

/-- Python `v[key] = x` for a string key: in-place dict update (overwrite in
place or append); `TypeError` on any non-dict. -/
def pySetItem (v : Json) (key : String) (x : Json) : Except String Json :=
  match v with
  | .obj kvs => .ok (.obj (objInsert kvs key x))
  | _ => .error "TypeError: item assignment"

/-- Python `round(x, 2)`: round to two decimal places, ties to even
(the decimal values are modelled exactly by rationals). -/
def round2 (x : ℚ) : ℚ :=
  let y := x * 100
  let n := Int.floor y
  let r := y - (n : ℚ)
  let i : ℤ :=
    if r < 1/2 then n
    else if 1/2 < r then n + 1
    else if n % 2 = 0 then n else n + 1
  (i : ℚ) / 100

/-! ## The Response Normalizer: `AIEvaluator._parse_evaluation` -/

/-- Lines 174-180 of `ai_evaluator.py`: remove a leading markdown fence
(tagged "```json" or untagged "```") and a trailing "```" from the stripped
response text. -/
def stripFences (s : String) : String :=
  let c0 := pyStrip s
  let c1 :=
    if pyStarts "```json" c0 then pyDrop 7 c0
    else if pyStarts "```" c0 then pyDrop 3 c0
    else c0
  if pyEnds "```" c1 then pyDropRight 3 c1 else c1

/-- Lines 183-186: `re.search(r'\x7b.*\x7d', cleaned, re.DOTALL)` — the
greedy match runs from the first brace that has a closing brace after it
(necessarily the first `{` of the string) to the last `}` of the string;
if there is a match, parsing is restricted to that span, otherwise the text
is left unchanged. -/
def braceSpan (s : String) : String :=
  let cs := s.toList
  match cs.findIdx? (· == '\x7b'), cs.reverse.findIdx? (· == '\x7d') with
  | some i, some k =>
    let j := cs.length - 1 - k
    if i < j then String.mk ((cs.drop i).take (j - i + 1)) else s
  | _, _ => s

/-- The text that `_parse_evaluation` actually hands to `json.loads`:
strip, remove fences, restrict to the brace span, strip again. -/
def cleanedText (evaluation_text : String) : String :=
  pyStrip (braceSpan (stripFences evaluation_text))

/-- One summand of the fallback overall score (lines 193-195):
`evaluation_data.get(key, {}).get("score", 0)` coerced to a number. -/
def sectionScore (data : Json) (key : String) : Except String ℚ := do
  let sec ← pyGet data key (Json.obj [])
  let sv ← pyGet sec "score" (Json.num 0)
  pyNum sv

/-- Lines 190-201 of `ai_evaluator.py`: after a successful `json.loads`,
insert the fallback `overall_score` (fixed weights 0.5/0.3/0.2, rounded to
2 places) into `overall_assessment` when that section is present and lacks
one, then return the data. -/
def postProcess (data : Json) : Except String Json := do
  let hasOA ← pyIn "overall_assessment" data
  if hasOA then
    let oa ← pyIndex data "overall_assessment"
    let hasOS ← pyIn "overall_score" oa
    if hasOS then
      pure data
    else
      let tech ← sectionScore data "technical_evaluation"
      let fin ← sectionScore data "financial_evaluation"
      let comp ← sectionScore data "compliance_evaluation"
      let overall := tech * (1/2 : ℚ) + fin * (3/10 : ℚ) + comp * (1/5 : ℚ)
      let oa2 ← pySetItem oa "overall_score" (Json.num (round2 overall))
      pySetItem data "overall_assessment" oa2
  else
    pure data

/-- Lines 208-218: the degraded record returned when `json.loads` raises,
with all four scores at 0, recommendation "reject", a summary embedding the
parse error, and the raw response kept verbatim. -/
def degradedResult (evaluation_text errMsg : String) : Json :=
  .obj
    [ ("technical_evaluation",
        .obj [("score", .num 0), ("key_findings", .str "Evaluation parsing failed")]),
      ("financial_evaluation",
        .obj [("score", .num 0), ("key_findings", .str "Evaluation parsing failed")]),
      ("compliance_evaluation",
        .obj [("score", .num 0), ("status", .str "fail")]),
      ("overall_assessment",
        .obj [("overall_score", .num 0), ("recommendation", .str "reject"),
              ("summary", .str ("Error parsing evaluation: " ++ errMsg))]),
      ("raw_response", .str evaluation_text) ]

/-- `AIEvaluator._parse_evaluation` (lines 166-218): clean the raw response,
`json.loads` it (a `JSONDecodeError` is caught and turned into the degraded
record), and post-process the decoded value.  A `.error` is an exception of
the post-processing path, which the `except json.JSONDecodeError` handler
does not catch. -/
def parse_evaluation (evaluation_text : String) : Except String Json :=
  match loads (cleanedText evaluation_text) with
  | .error e => .ok (degradedResult evaluation_text e)
  | .ok data => postProcess data

/-! ## The Evaluation Request Builder: `_prepare_documents` and
`_format_documents` -/

/-- One element of the `documents` argument of `_prepare_documents`
(a dict; a missing key is `none`). -/
structure PyDoc where
  document_type : Option String
  filename : Option String
  extracted_text : Option String
  metadata : Option Json

/-- One entry of a `doc_summaries` group (lines 83-87). -/
structure DocEntry where
  filename : Option String
  content : String
  metadata : Json

/-- Lines 76-87, one document: type defaults to "unknown", content is the
first 5000 characters of the extracted text (empty if missing). -/
def entryOf (d : PyDoc) : DocEntry :=
  { filename := d.filename,
    content := pyTake 5000 (d.extracted_text.getD ""),
    metadata := d.metadata.getD (Json.obj []) }

/-- Line 77: `doc.get("document_type", "unknown")`. -/
def docType (d : PyDoc) : String := d.document_type.getD "unknown"

/-- Append an entry to the insertion-ordered group map (lines 80-87). -/
def addToGroup (acc : List (String × List DocEntry)) (ty : String) (e : DocEntry) :
    List (String × List DocEntry) :=
  if acc.any (fun p => p.1 == ty) then
    acc.map (fun p => if p.1 == ty then (p.1, p.2 ++ [e]) else p)
  else acc ++ [(ty, [e])]

/-- `AIEvaluator._prepare_documents` (lines 72-89): group the documents by
`document_type` (insertion-ordered dict), keeping upload order inside each
group and truncating each text to 5000 characters. -/
def prepare_documents (documents : List PyDoc) : List (String × List DocEntry) :=
  documents.foldl (fun acc doc => addToGroup acc (docType doc) (entryOf doc)) []

/-- Python `f"{x}"` on an optional string: `None` renders as "None". -/
def pyStrOpt : Option String → String
  | some s => s
  | none => "None"

/-- Lines 162-163: the fragment contributed to the prompt for one document —
filename header, then the first 2000 characters of the content, then the
unconditional "..." marker. -/
def renderDoc (e : DocEntry) : String :=
  "\n**File: " ++ pyStrOpt e.filename ++ "**\n" ++ pyTake 2000 e.content ++ "...\n"

/-- Lines 159-163: the fragment contributed for one document-type group. -/
def renderGroup (ty : String) (docs : List DocEntry) : String :=
  "\n### " ++ ty.toUpper ++ " DOCUMENTS\n" ++ String.join (docs.map renderDoc)

/-- `AIEvaluator._format_documents` (lines 156-164). -/
def format_documents (groups : List (String × List DocEntry)) : String :=
  String.join (groups.map fun p => renderGroup p.1 p.2)

/-! ## The Format Extractors: `DocumentProcessor` (`document_processor.py`)

The binary-format libraries (PyPDF2, python-docx, pandas, openpyxl) are an
external boundary: they are modelled as a record of functions from raw bytes
to either the structured content the library hands back to the repository
code, or a raised exception (`.error`).  Everything the repository code does
with that content is embedded faithfully. -/

/-- Raw file bytes. -/
abbrev Bytes := List Nat

/-- Content of a Word document as handed back by `python-docx`: paragraph
texts in document order, and tables as rows of cell texts. -/
structure DocxFile where
  paragraphs : List String
  tables : List (List (List String))

/-- One sheet as handed back by `pandas.read_excel`: the sheet name, the
rendering of `df.head(100).to_string(index=False)`, whether the frame has
numeric columns, and the rendering of `df[numeric].describe().to_string()`. -/
structure XlsSheet where
  name : String
  headRender : String
  hasNumericCols : Bool
  describeRender : String

/-- The external document libraries: each reader either returns parsed
content or raises.  `openpyxlRead` gives, per sheet, the rows of
`iter_rows(max_row=100, values_only=True)` with each cell either `None` or
its `str()` rendering. -/
structure DocLibs where
  pdfPages : Bytes → Except String (List String)
  docxRead : Bytes → Except String DocxFile
  pandasReadExcel : Bytes → Except String (List XlsSheet)
  openpyxlRead : Bytes → Except String (List (String × List (List (Option String))))

/-- Lines 46-51 of `document_processor.py`: one block per page whose
extracted text is non-empty, tagged with the 1-based page number
(`k` is the number of pages already consumed). -/
def pdfBlocks (k : Nat) : List String → List String
  | [] => []
  | t :: ts => (if t ≠ "" then ["--- Page " ++ toString (k + 1) ++ " ---\n" ++ t] else [])
      ++ pdfBlocks (k + 1) ts

/-- `DocumentProcessor._extract_from_pdf` (lines 40-59): page blocks joined
with blank lines; any library failure becomes the "Error reading PDF: "
string. -/
def extract_from_pdf (lib : DocLibs) (content : Bytes) : String :=
  match lib.pdfPages content with
  | .ok pages => String.intercalate "\n\n" (pdfBlocks 0 pages)
  | .error e => "Error reading PDF: " ++ e

/-- Lines 75-82: a table rendered as rows of stripped cells joined by
`" | "`, wrapped in `[TABLE]`/`[/TABLE]`; an empty table contributes
nothing. -/
def tableBlock (table : List (List String)) : List String :=
  let table_text := table.map fun row => String.intercalate " | " (row.map pyStrip)
  if table_text ≠ [] then
    ["\n[TABLE]\n" ++ String.intercalate "\n" table_text ++ "\n[/TABLE]"]
  else []

/-- `DocumentProcessor._extract_from_docx` (lines 61-90): paragraphs whose
stripped text is non-blank (kept unstripped), then table blocks, joined with
blank lines; failures become the "Error reading Word document: " string. -/
def extract_from_docx (lib : DocLibs) (content : Bytes) : String :=
  match lib.docxRead content with
  | .ok d =>
    let paras := d.paragraphs.filter fun p => pyStrip p ≠ ""
    let tables := (d.tables.map tableBlock).flatten
    String.intercalate "\n\n" (paras ++ tables)
  | .error e => "Error reading Word document: " ++ e

/-- Lines 103-115: the text parts contributed by one pandas sheet. -/
def sheetText (s : XlsSheet) : List String :=
  ["--- Sheet: " ++ s.name ++ " ---", s.headRender]
    ++ (if s.hasNumericCols then ["\n[SUMMARY STATISTICS]", s.describeRender] else [])

/-- Lines 135-141: one openpyxl row — skipped when fully empty, otherwise
cells (empty string for `None`) joined by `" | "`. -/
def rowLine (row : List (Option String)) : List String :=
  if row.any Option.isSome then [String.intercalate " | " (row.map fun c => c.getD "")]
  else []

/-- Lines 129-143: the openpyxl fallback rendering — per sheet a header line
then its first 100 row lines, all joined by single newlines. -/
def openpyxlText (sheets : List (String × List (List (Option String)))) : String :=
  String.intercalate "\n"
    ((sheets.map fun p => ("--- Sheet: " ++ p.1 ++ " ---") :: ((p.2.take 100).map rowLine).flatten).flatten)

/-- `DocumentProcessor._extract_from_excel` (lines 92-153): pandas first,
openpyxl as fallback; only when both fail is the "Error reading Excel
file: " string (with the openpyxl error) returned. -/
def extract_from_excel (lib : DocLibs) (content : Bytes) : String :=
  match lib.pandasReadExcel content with
  | .ok sheets => String.intercalate "\n\n" ((sheets.map sheetText).flatten)
  | .error _ =>
    match lib.openpyxlRead content with
    | .ok osheets => openpyxlText osheets
    | .error e2 => "Error reading Excel file: " ++ e2

/-- `DocumentProcessor.extract_text` (lines 14-38): dispatch on the file
extension; unsupported extensions give the empty string.  Every branch is a
total function (each helper converts its own failures to text), so the outer
`except` clause of the source is unreachable and the call never raises. -/
def extract_text (lib : DocLibs) (file_content : Bytes) (file_extension : String) : String :=
  if file_extension = ".pdf" then extract_from_pdf lib file_content
  else if file_extension = ".docx" ∨ file_extension = ".doc" then extract_from_docx lib file_content
  else if file_extension = ".xlsx" ∨ file_extension = ".xls" then extract_from_excel lib file_content
  else ""

/-! ## The Aggregator & Ranker: `get_project_evaluations`
(`organization.py`, lines 191-254)

The route walks the project's bids (as returned by the bid query), keeps
those that have an evaluation, builds one output record per evaluated bid —
`rank` is copied from the stored evaluation row — and finally sorts the
records by `overall_score` descending with Python's stable `list.sort`
(modelled by the stable `List.insertionSort` with the reversed key order). -/

/-- A stored `Evaluation` row (`models.py`): `rank` is a nullable integer
column that the route reads but never writes. -/
structure EvalRec where
  technical_score : ℚ
  financial_score : ℚ
  overall_score : ℚ
  is_qualified : Bool
  rank : Option Int
  ai_analysis : String
deriving DecidableEq

/-- A bid of the project together with its (optional) evaluation row and its
bidder's company name. -/
structure BidRow where
  id : Nat
  bidder_name : String
  bid_amount : ℚ
  evaluation : Option EvalRec
deriving DecidableEq

/-- One element of the route's `evaluations_data` list (lines 234-244). -/
structure EvalOut where
  bid_id : Nat
  bidder_name : String
  bid_amount : ℚ
  technical_score : ℚ
  financial_score : ℚ
  overall_score : ℚ
  is_qualified : Bool
  rank : Option Int
  ai_analysis : String
deriving DecidableEq

/-- The key order used by the route's final sort: `x` before `y` when `y`
scores no higher than `x` (descending by `overall_score`). -/
def evalGE (x y : EvalOut) : Prop := y.overall_score ≤ x.overall_score

instance : DecidableRel evalGE := fun x y =>
  inferInstanceAs (Decidable (y.overall_score ≤ x.overall_score))

instance : IsTotal EvalOut evalGE := ⟨fun a b => le_total b.overall_score a.overall_score⟩

instance : IsTrans EvalOut evalGE := ⟨fun _ _ _ h1 h2 => le_trans h2 h1⟩

/-- Lines 234-244: the output record for one evaluated bid; every field,
including `rank`, is copied from the stored rows. -/
def rowOf (b : BidRow) (ev : EvalRec) : EvalOut :=
  { bid_id := b.id,
    bidder_name := b.bidder_name,
    bid_amount := b.bid_amount,
    technical_score := ev.technical_score,
    financial_score := ev.financial_score,
    overall_score := ev.overall_score,
    is_qualified := ev.is_qualified,
    rank := ev.rank,
    ai_analysis := ev.ai_analysis }

/-- The core of `get_project_evaluations` (lines 225-248): collect the
records of the evaluated bids in query order, then
`evaluations_data.sort(key=lambda x: x["overall_score"], reverse=True)` —
a stable sort by overall score descending.  No rank is assigned here. -/
def get_project_evaluations (bids : List BidRow) : List EvalOut :=
  let data := bids.filterMap fun b => b.evaluation.map (rowOf b)
  List.insertionSort evalGE data

/-! ## Helper lemmas -/

/-- Looking up a key just written by `objInsert` yields the written value. -/
theorem lookup_objInsert (kvs : List (String × Json)) (k : String) (v : Json) :
    List.lookup k (objInsert kvs k v) = some v := by
  unfold objInsert
  by_cases hc : kvs.any (fun p => p.1 == k)
  · rw [if_pos hc]
    induction kvs with
    | nil => simp at hc
    | cons p rest ih =>
      by_cases h0 : p.1 = k
      · simp [h0, List.lookup_cons_self]
      · have hr : rest.any (fun q => q.1 == k) = true := by
          simp only [List.any_cons, Bool.or_eq_true] at hc
          rcases hc with hp | hr
          · exact absurd (eq_of_beq hp) h0
          · exact hr
        have hk : (k == p.1) = false := by
          simp only [beq_eq_false_iff_ne, ne_eq]
          exact fun h => h0 h.symm
        rw [List.map_cons, if_neg (by simpa using h0), List.lookup_cons, hk]
        exact ih hr
  · rw [if_neg hc]
    have hnone : List.lookup k kvs = none := by
      rw [List.lookup_eq_none_iff]
      intro p hp
      simp only [List.any_eq_true, not_exists, not_and] at hc
      simp only [bne_iff_ne, ne_eq]
      exact fun h => hc p hp (by simp [h])
    rw [List.lookup_append, hnone, List.lookup_cons_self]
    rfl

/-- `parse_evaluation` on a text whose cleaned form fails to decode. -/
theorem parse_evaluation_of_decode_error (s e : String)
    (h : loads (cleanedText s) = .error e) :
    parse_evaluation s = .ok (degradedResult s e) := by
  unfold parse_evaluation
  rw [h]

/-- `parse_evaluation` on a text whose cleaned form decodes. -/
theorem parse_evaluation_of_decode_ok (s : String) (v : Json)
    (h : loads (cleanedText s) = .ok v) :
    parse_evaluation s = postProcess v := by
  unfold parse_evaluation
  rw [h]

/-! ## Claim C8 -/

/-- Claim C8: the Response Normalizer is pure and deterministic — in the
embedding `parse_evaluation` is a function of the raw input text alone
(`json.loads`, the regular-expression search and the string operations of
the source have no state), so running it twice on the same text yields
identical `EvaluationResult` output. -/
theorem parse_evaluation_deterministic (s : String) :
    parse_evaluation s = parse_evaluation s := rfl

/-! ## Claim C9 -/

/-- Claim C9: the rendered excerpt ends with the marker "..." even when no
truncation happened — for a document whose content is at most 2000
characters (including empty content) the whole content appears, followed by
the marker, so the marker does not indicate truncation. -/
theorem renderDoc_marker_unconditional (e : DocEntry) (h : e.content.length ≤ 2000) :
    renderDoc e = "\n**File: " ++ pyStrOpt e.filename ++ "**\n" ++ e.content ++ "...\n" := by
  have hlen : e.content.toList.length ≤ 2000 := h
  have hc : pyTake 2000 e.content = e.content := by
    unfold pyTake
    rw [List.take_of_length_le hlen]
    rfl
  unfold renderDoc
  rw [hc]

/-- Witness for C9: an empty-content document still gets the "..." marker. -/
theorem renderDoc_marker_unconditional_witness :
    (("" : String).length ≤ 2000) ∧
      renderDoc ⟨some "a.pdf", "", Json.obj []⟩ =
        "\n**File: " ++ pyStrOpt (some "a.pdf") ++ "**\n" ++ "" ++ "...\n" :=
  ⟨by decide, renderDoc_marker_unconditional ⟨some "a.pdf", "", Json.obj []⟩ (by decide)⟩

/-! ## Claim C4 -/

/-- Claim C4: `extract_text` never raises — it is a total function into
`String` because every per-format helper catches its own library failure —
and an extraction failure is returned as a string beginning with
"Error reading <Format>: " followed by the failure detail (for Excel, only
after both strategies fail, with the second error).  In particular a
corrupted PDF stream yields a string starting with "Error reading PDF:". -/
theorem extract_text_error_strings (lib : DocLibs) (content : Bytes) :
    (∀ e, lib.pdfPages content = .error e →
      extract_text lib content ".pdf" = "Error reading PDF: " ++ e ∧
      pyStarts "Error reading PDF:" (extract_text lib content ".pdf") = true) ∧
    (∀ e, lib.docxRead content = .error e →
      extract_text lib content ".docx" = "Error reading Word document: " ++ e ∧
      extract_text lib content ".doc" = "Error reading Word document: " ++ e) ∧
    (∀ e1 e2, lib.pandasReadExcel content = .error e1 → lib.openpyxlRead content = .error e2 →
      extract_text lib content ".xlsx" = "Error reading Excel file: " ++ e2 ∧
      extract_text lib content ".xls" = "Error reading Excel file: " ++ e2) := by
  refine ⟨fun e he => ?_, fun e he => ?_, fun e1 e2 he1 he2 => ?_⟩
  · have h1 : extract_text lib content ".pdf" = "Error reading PDF: " ++ e := by
      unfold extract_text extract_from_pdf
      rw [if_pos rfl, he]
    refine ⟨h1, ?_⟩
    rw [h1]
    rfl
  · constructor
    · unfold extract_text extract_from_docx
      rw [if_neg (by decide), if_pos (Or.inl rfl), he]
    · unfold extract_text extract_from_docx
      rw [if_neg (by decide), if_pos (Or.inr rfl), he]
  · constructor
    · unfold extract_text extract_from_excel
      rw [if_neg (by decide), if_neg (by decide), if_pos (Or.inl rfl), he1, he2]
    · unfold extract_text extract_from_excel
      rw [if_neg (by decide), if_neg (by decide), if_pos (Or.inr rfl), he1, he2]

/-- A library record in which every reader fails, for the C4 witness. -/
def failingLibs : DocLibs :=
  { pdfPages := fun _ => .error "EOF marker not found",
    docxRead := fun _ => .error "file is not a zip file",
    pandasReadExcel := fun _ => .error "not a spreadsheet",
    openpyxlRead := fun _ => .error "corrupt workbook" }

/-- Witness for C4: a corrupted byte stream produces the prefixed error
strings for every format and the extraction calls return (they do not
raise). -/
theorem extract_text_error_strings_witness :
    (failingLibs.pdfPages [0] = .error "EOF marker not found") ∧
      extract_text failingLibs [0] ".pdf" = "Error reading PDF: " ++ "EOF marker not found" ∧
      pyStarts "Error reading PDF:" (extract_text failingLibs [0] ".pdf") = true ∧
      extract_text failingLibs [0] ".docx" = "Error reading Word document: " ++ "file is not a zip file" ∧
      extract_text failingLibs [0] ".xlsx" = "Error reading Excel file: " ++ "corrupt workbook" := by
  have h := extract_text_error_strings failingLibs [0]
  have h1 := h.1 "EOF marker not found" rfl
  have h2 := h.2.1 "file is not a zip file" rfl
  have h3 := h.2.2 "not a spreadsheet" "corrupt workbook" rfl rfl
  exact ⟨rfl, h1.1, h1.2, h2.1, h3.1⟩

/-! ## Claim C6 -/

/-- When every page yields non-empty text, the page loop emits exactly one
block per page, tagged with consecutive 1-based page numbers. -/
theorem pdfBlocks_of_all_nonempty (pages : List String) :
    ∀ k, (∀ t ∈ pages, t ≠ "") →
      pdfBlocks k pages =
        pages.mapIdx fun i t => "--- Page " ++ toString (k + i + 1) ++ " ---\n" ++ t := by
  induction pages with
  | nil => intro k _; simp [pdfBlocks]
  | cons t ts ih =>
    intro k h
    have ht : t ≠ "" := h t (List.mem_cons_self t ts)
    unfold pdfBlocks
    rw [if_pos ht, List.mapIdx_cons, ih (k + 1) (fun x hx => h x (List.mem_cons_of_mem t hx))]
    have harg : ∀ i : ℕ, k + 1 + i + 1 = k + (i + 1) + 1 := fun i => by omega
    simp only [harg]
    rfl

/-- Claim C6: when the library decodes pages 1..N and each yields non-empty
text, the PDF extractor emits exactly one "--- Page k ---" block per page,
in ascending 1-based order with no page duplicated or omitted, joined by
blank-line separators; a page yielding no text contributes no block (and
does not shift the numbering of later pages). -/
theorem extract_from_pdf_page_markers (lib : DocLibs) (content : Bytes) (pages : List String)
    (hok : lib.pdfPages content = .ok pages) :
    ((∀ t ∈ pages, t ≠ "") →
      extract_from_pdf lib content =
        String.intercalate "\n\n"
          (pages.mapIdx fun i t => "--- Page " ++ toString (i + 1) ++ " ---\n" ++ t)) ∧
    (∀ k ts, pdfBlocks k ("" :: ts) = pdfBlocks (k + 1) ts) := by
  constructor
  · intro h
    unfold extract_from_pdf
    rw [hok]
    show String.intercalate "\n\n" (pdfBlocks 0 pages) = _
    rw [pdfBlocks_of_all_nonempty pages 0 h]
    have hz : ∀ i : ℕ, 0 + i + 1 = i + 1 := fun i => by omega
    simp only [hz]
  · intro k ts
    simp [pdfBlocks]

/-- A library record decoding a fixed two-page PDF, for the C6 witness. -/
def twoPageLib : DocLibs :=
  { pdfPages := fun _ => .ok ["alpha", "beta"],
    docxRead := fun _ => .error "unused",
    pandasReadExcel := fun _ => .error "unused",
    openpyxlRead := fun _ => .error "unused" }

/-- Witness for C6: a two-page PDF with non-empty pages yields both markers
in order, and an empty page contributes no block. -/
theorem extract_from_pdf_page_markers_witness :
    extract_from_pdf twoPageLib [] =
      String.intercalate "\n\n"
        ((["alpha", "beta"] : List String).mapIdx fun i t =>
          "--- Page " ++ toString (i + 1) ++ " ---\n" ++ t) ∧
    pdfBlocks 0 ("" :: ["x"]) = pdfBlocks 1 ["x"] :=
  ⟨(extract_from_pdf_page_markers twoPageLib [] ["alpha", "beta"] rfl).1 (by decide),
   (extract_from_pdf_page_markers twoPageLib [] ["alpha", "beta"] rfl).2 0 ["x"]⟩

/-! ## Claim C1 -/

/-- Three evaluated bids whose overall scores are 70, 95 and 82 (in
submission-query order), all with a NULL stored `rank`. -/
def exampleBids : List BidRow :=
  [ ⟨1, "Alpha Corp", 100, some ⟨60, 80, 70, true, none, "a"⟩⟩,
    ⟨2, "Beta Ltd", 90, some ⟨95, 95, 95, true, none, "b"⟩⟩,
    ⟨3, "Gamma Inc", 80, some ⟨82, 82, 82, true, none, "c"⟩⟩ ]

/-- Counterexample to claim C1: on overall scores [70, 95, 82] the route
sorts the records to [95, 82, 70] but does NOT assign ranks 1..N — every
returned `rank` is still the stored NULL, so the bid scoring 95 does not
receive rank 1. -/
theorem get_project_evaluations_no_rank_assignment :
    (get_project_evaluations exampleBids).map (fun r => r.overall_score) = [95, 82, 70] ∧
    (get_project_evaluations exampleBids).map (fun r => r.rank) = [none, none, none] ∧
    (get_project_evaluations exampleBids).map (fun r => r.rank) ≠
      [some 1, some 2, some 3] := by
  refine ⟨?_, ?_, ?_⟩ <;> decide

/-- Claim C1 (amended): the operation sorts the evaluated bids by overall
score in descending order (a stable sort of the records of the evaluated
bids), but it assigns no ranks — each returned record carries the stored
`evaluation.rank` of its bid unchanged. -/
theorem get_project_evaluations_sorted_rank_preserved (bids : List BidRow) :
    List.Sorted evalGE (get_project_evaluations bids) ∧
    (get_project_evaluations bids).Perm
      (bids.filterMap fun b => b.evaluation.map (rowOf b)) ∧
    (∀ r ∈ get_project_evaluations bids,
      ∃ b ∈ bids, ∃ ev, b.evaluation = some ev ∧ r = rowOf b ev ∧ r.rank = ev.rank) := by
  refine ⟨List.sorted_insertionSort evalGE _, List.perm_insertionSort evalGE _, ?_⟩
  intro r hr
  have hr2 : r ∈ bids.filterMap fun b => b.evaluation.map (rowOf b) :=
    (List.perm_insertionSort evalGE _).mem_iff.mp hr
  rw [List.mem_filterMap] at hr2
  obtain ⟨b, hb, hmap⟩ := hr2
  rw [Option.map_eq_some'] at hmap
  obtain ⟨ev, hev, hrow⟩ := hmap
  exact ⟨b, hb, ev, hev, hrow.symm, by rw [hrow.symm]; rfl⟩

/-- Witness for the amended C1 theorem at the concrete three-bid input. -/
theorem get_project_evaluations_sorted_rank_preserved_witness :
    List.Sorted evalGE (get_project_evaluations exampleBids) ∧
    (⟨2, "Beta Ltd", 90, 95, 95, 95, true, none, "b"⟩ : EvalOut) ∈
      get_project_evaluations exampleBids ∧
    (∃ b ∈ exampleBids, ∃ ev, b.evaluation = some ev ∧
      (⟨2, "Beta Ltd", 90, 95, 95, 95, true, none, "b"⟩ : EvalOut) = rowOf b ev ∧
      (⟨2, "Beta Ltd", 90, 95, 95, 95, true, none, "b"⟩ : EvalOut).rank = ev.rank) :=
  ⟨(get_project_evaluations_sorted_rank_preserved exampleBids).1,
   by decide,
   (get_project_evaluations_sorted_rank_preserved exampleBids).2.2 _ (by decide)⟩

/-! ## Claims about the Response Normalizer -/

/-- Key access on a decoded JSON record (none on non-dicts). -/
def getKey (v : Json) (k : String) : Option Json :=
  match v with
  | .obj kvs => List.lookup k kvs
  | _ => none

/-- Nested key access on a decoded JSON record. -/
def getPath (v : Json) (k1 k2 : String) : Option Json :=
  match getKey v k1 with
  | some w => getKey w k2
  | none => none

/-- Reduction of the `Except` bind on a returned value. -/
theorem bindOk {α β : Type} (a : α) (f : α → Except String β) :
    ((Except.ok a : Except String α) >>= f) = f a := rfl

/-- Computation of `postProcess` on a dict with an `overall_assessment`
section that lacks `overall_score`: the fallback overall score is inserted
with the fixed weights 0.5/0.3/0.2, rounded to 2 places. -/
theorem postProcess_inserts (kvs o : List (String × Json)) (t f c : ℚ)
    (hoa : List.lookup "overall_assessment" kvs = some (.obj o))
    (hnos : List.lookup "overall_score" o = none)
    (ht : sectionScore (.obj kvs) "technical_evaluation" = .ok t)
    (hf : sectionScore (.obj kvs) "financial_evaluation" = .ok f)
    (hc : sectionScore (.obj kvs) "compliance_evaluation" = .ok c) :
    postProcess (.obj kvs) =
      .ok (.obj (objInsert kvs "overall_assessment"
        (.obj (objInsert o "overall_score"
          (.num (round2 (t * (1/2 : ℚ) + f * (3/10 : ℚ) + c * (1/5 : ℚ)))))))) := by
  have h1 : pyIn "overall_assessment" (Json.obj kvs) = .ok true := by
    simp [pyIn, hoa]
  have h2 : pyIndex (Json.obj kvs) "overall_assessment" = .ok (.obj o) := by
    simp [pyIndex, hoa]
  have h3 : pyIn "overall_score" (Json.obj o) = .ok false := by
    simp [pyIn, hnos]
  unfold postProcess
  rw [h1, bindOk]
  simp only [if_true]
  rw [h2, bindOk, h3, bindOk]
  simp only [Bool.false_eq_true, if_false]
  rw [ht, bindOk, hf, bindOk, hc, bindOk]
  rfl

/-- Claim C3: whenever decoding of the cleaned oracle text fails, the
normalizer returns (rather than raising: the result is a normal `.ok`
return) the degraded record, whose four scores are all 0, whose
recommendation is "reject", whose summary states the parse error, and which
keeps the original input verbatim under `raw_response` for audit. -/
theorem parse_evaluation_degraded_on_parse_failure (s e : String)
    (h : loads (cleanedText s) = .error e) :
    parse_evaluation s = .ok (degradedResult s e) ∧
    getPath (degradedResult s e) "technical_evaluation" "score" = some (.num 0) ∧
    getPath (degradedResult s e) "financial_evaluation" "score" = some (.num 0) ∧
    getPath (degradedResult s e) "compliance_evaluation" "score" = some (.num 0) ∧
    getPath (degradedResult s e) "overall_assessment" "overall_score" = some (.num 0) ∧
    getPath (degradedResult s e) "overall_assessment" "recommendation" = some (.str "reject") ∧
    getPath (degradedResult s e) "overall_assessment" "summary" =
      some (.str ("Error parsing evaluation: " ++ e)) ∧
    getKey (degradedResult s e) "raw_response" = some (.str s) :=
  ⟨parse_evaluation_of_decode_error s e h, rfl, rfl, rfl, rfl, rfl, rfl, rfl⟩

/-- Witness for C3: plain prose is not decodable, and the normalizer
returns the degraded record for it. -/
theorem parse_evaluation_degraded_on_parse_failure_witness :
    loads (cleanedText "This bid looks strong overall.") = .error "Expecting value" ∧
    parse_evaluation "This bid looks strong overall." =
      .ok (degradedResult "This bid looks strong overall." "Expecting value") ∧
    getKey (degradedResult "This bid looks strong overall." "Expecting value") "raw_response" =
      some (.str "This bid looks strong overall.") :=
  ⟨rfl,
   (parse_evaluation_degraded_on_parse_failure "This bid looks strong overall."
      "Expecting value" rfl).1,
   (parse_evaluation_degraded_on_parse_failure "This bid looks strong overall."
      "Expecting value" rfl).2.2.2.2.2.2.2⟩

unseal Rat.add Rat.mul Rat.sub Rat.inv in
/-- Claim C10: in the fallback overall-score computation, an evaluation
section that is absent, or present without a "score" field, contributes 0 to
the weighted sum instead of failing; in particular an answer containing only
`overall_assessment` (without `overall_score`) gets `overall_score = 0`. -/
theorem sectionScore_default_on_missing :
    (∀ (kvs : List (String × Json)) (sec : String),
      List.lookup sec kvs = none → sectionScore (.obj kvs) sec = .ok 0) ∧
    (∀ (kvs o : List (String × Json)) (sec : String),
      List.lookup sec kvs = some (.obj o) → List.lookup "score" o = none →
        sectionScore (.obj kvs) sec = .ok 0) ∧
    (∀ s : String,
      loads (cleanedText s) = .ok (.obj [("overall_assessment", .obj [])]) →
        parse_evaluation s = .ok (.obj [("overall_assessment",
          .obj [("overall_score", .num 0)])])) := by
  refine ⟨fun kvs sec h => ?_, fun kvs o sec h h2 => ?_, fun s h => ?_⟩
  · unfold sectionScore
    rw [show pyGet (Json.obj kvs) sec (Json.obj []) = .ok (Json.obj []) from by
      simp [pyGet, h]]
    rw [bindOk]
    rfl
  · unfold sectionScore
    rw [show pyGet (Json.obj kvs) sec (Json.obj []) = .ok (Json.obj o) from by
      simp [pyGet, h]]
    rw [bindOk]
    rw [show pyGet (Json.obj o) "score" (Json.num 0) = .ok (Json.num 0) from by
      simp [pyGet, h2]]
    rw [bindOk]
    rfl
  · rw [parse_evaluation_of_decode_ok s _ h]
    rw [postProcess_inserts [("overall_assessment", Json.obj [])] [] 0 0 0 rfl rfl rfl rfl rfl]
    rfl

/-- Witness for C10: a missing section, a section without a score, and the
answer consisting of a bare `overall_assessment` all contribute/receive 0. -/
theorem sectionScore_default_on_missing_witness :
    sectionScore (.obj []) "technical_evaluation" = .ok 0 ∧
    sectionScore (.obj [("technical_evaluation", .obj [("status", .str "ok")])])
      "technical_evaluation" = .ok 0 ∧
    parse_evaluation "\x7b\"overall_assessment\":\x7b\x7d\x7d" =
      .ok (.obj [("overall_assessment", .obj [("overall_score", .num 0)])]) :=
  ⟨sectionScore_default_on_missing.1 [] "technical_evaluation" rfl,
   sectionScore_default_on_missing.2.1 [("technical_evaluation", .obj [("status", .str "ok")])]
     [("status", .str "ok")] "technical_evaluation" rfl rfl,
   sectionScore_default_on_missing.2.2 "\x7b\"overall_assessment\":\x7b\x7d\x7d" rfl⟩

/-- Claim C5: when the decoded answer has an `overall_assessment` without
`overall_score`, the normalizer inserts
`overall_score = round(0.5*technical + 0.3*financial + 0.2*compliance, 2)` —
the weights are the fixed constants of the source (`_parse_evaluation` takes
no weights argument, so the result is independent of any caller weights). -/
theorem parse_evaluation_fallback_weights (s : String) (kvs o : List (String × Json))
    (t f c : ℚ)
    (h : loads (cleanedText s) = .ok (.obj kvs))
    (hoa : List.lookup "overall_assessment" kvs = some (.obj o))
    (hnos : List.lookup "overall_score" o = none)
    (ht : sectionScore (.obj kvs) "technical_evaluation" = .ok t)
    (hf : sectionScore (.obj kvs) "financial_evaluation" = .ok f)
    (hc : sectionScore (.obj kvs) "compliance_evaluation" = .ok c) :
    parse_evaluation s =
      .ok (.obj (objInsert kvs "overall_assessment"
        (.obj (objInsert o "overall_score"
          (.num (round2 (t * (1/2 : ℚ) + f * (3/10 : ℚ) + c * (1/5 : ℚ)))))))) := by
  rw [parse_evaluation_of_decode_ok s _ h, postProcess_inserts kvs o t f c hoa hnos ht hf hc]

/-- The spec example for C5: scores 80/70/90 and a recommendation but no
overall score. -/
def c5Input : String :=
  "\x7b\"technical_evaluation\":\x7b\"score\":80\x7d,\"financial_evaluation\":\x7b\"score\":70\x7d,\"compliance_evaluation\":\x7b\"score\":90\x7d,\"overall_assessment\":\x7b\"recommendation\":\"award\"\x7d\x7d"

set_option maxRecDepth 10000 in
unseal Rat.add Rat.mul Rat.sub Rat.inv in
/-- Witness for C5: on the spec example the inserted overall score is 79.0
(0.5*80 + 0.3*70 + 0.2*90). -/
theorem parse_evaluation_fallback_weights_witness :
    parse_evaluation c5Input =
      .ok (.obj
        [("technical_evaluation", .obj [("score", .num 80)]),
         ("financial_evaluation", .obj [("score", .num 70)]),
         ("compliance_evaluation", .obj [("score", .num 90)]),
         ("overall_assessment", .obj
           [("recommendation", .str "award"), ("overall_score", .num 79)])]) :=
  parse_evaluation_fallback_weights c5Input
    [("technical_evaluation", .obj [("score", .num 80)]),
     ("financial_evaluation", .obj [("score", .num 70)]),
     ("compliance_evaluation", .obj [("score", .num 90)]),
     ("overall_assessment", .obj [("recommendation", .str "award")])]
    [("recommendation", .str "award")] 80 70 90 rfl rfl rfl rfl rfl rfl

/-- Reduction of `pure` in the `Except` monad. -/
theorem pureOk {α : Type} (a : α) : (pure a : Except String α) = .ok a := rfl

/-- Reduction of the `Except` bind on a raised exception. -/
theorem bindErr {α β : Type} (e : String) (f : α → Except String β) :
    ((Except.error e : Except String α) >>= f) = .error e := rfl

/-- Whatever `postProcess` returns normally: if the returned dict has an
`overall_assessment` whose value is a dict, that dict contains an
`overall_score` key (either the decoded answer already had one, or the
fallback insertion put one there). -/
theorem postProcess_preserves_overall (v : Json) (kvs o : List (String × Json))
    (hok : postProcess v = .ok (.obj kvs))
    (hoa : List.lookup "overall_assessment" kvs = some (.obj o)) :
    (List.lookup "overall_score" o).isSome = true := by
  cases v with
  | obj kvs0 =>
    unfold postProcess at hok
    rw [show pyIn "overall_assessment" (Json.obj kvs0)
        = .ok (List.lookup "overall_assessment" kvs0).isSome from rfl, bindOk] at hok
    cases hx : List.lookup "overall_assessment" kvs0 with
    | none =>
      rw [hx] at hok
      simp only [Option.isSome_none, Bool.false_eq_true, if_false] at hok
      have hkvs : kvs0 = kvs := by simpa [pureOk] using hok
      rw [← hkvs, hx] at hoa
      cases hoa
    | some oa =>
      rw [hx] at hok
      simp only [Option.isSome_some, if_true] at hok
      rw [show pyIndex (Json.obj kvs0) "overall_assessment"
          = match List.lookup "overall_assessment" kvs0 with
            | some x => .ok x
            | none => .error "KeyError" from rfl, hx, bindOk] at hok
      cases oa with
      | obj o0 =>
        rw [show pyIn "overall_score" (Json.obj o0)
            = .ok (List.lookup "overall_score" o0).isSome from rfl, bindOk] at hok
        cases hy : (List.lookup "overall_score" o0).isSome with
        | true =>
          rw [hy] at hok
          simp only [if_true] at hok
          have hkvs : kvs0 = kvs := by simpa [pureOk] using hok
          rw [← hkvs, hx] at hoa
          have : Json.obj o0 = Json.obj o := by simpa using hoa
          have ho : o0 = o := by injection this
          rw [← ho]
          exact hy
        | false =>
          rw [hy] at hok
          simp only [Bool.false_eq_true, if_false] at hok
          cases hts : sectionScore (Json.obj kvs0) "technical_evaluation" with
          | error e => rw [hts, bindErr] at hok; cases hok
          | ok t =>
            rw [hts, bindOk] at hok
            cases hfs : sectionScore (Json.obj kvs0) "financial_evaluation" with
            | error e => rw [hfs, bindErr] at hok; cases hok
            | ok f =>
              rw [hfs, bindOk] at hok
              cases hcs : sectionScore (Json.obj kvs0) "compliance_evaluation" with
              | error e => rw [hcs, bindErr] at hok; cases hok
              | ok c =>
                rw [hcs, bindOk] at hok
                rw [show ∀ x, pySetItem (Json.obj o0) "overall_score" x
                    = .ok (.obj (objInsert o0 "overall_score" x)) from fun x => rfl,
                  bindOk] at hok
                rw [show ∀ x, pySetItem (Json.obj kvs0) "overall_assessment" x
                    = .ok (.obj (objInsert kvs0 "overall_assessment" x)) from fun x => rfl] at hok
                have hkvs : objInsert kvs0 "overall_assessment"
                    (.obj (objInsert o0 "overall_score"
                      (.num (round2 (t * (1/2 : ℚ) + f * (3/10 : ℚ) + c * (1/5 : ℚ)))))) = kvs := by
                  simpa using hok
                rw [← hkvs, lookup_objInsert] at hoa
                have : Json.obj (objInsert o0 "overall_score"
                    (.num (round2 (t * (1/2 : ℚ) + f * (3/10 : ℚ) + c * (1/5 : ℚ)))))
                    = Json.obj o := by simpa using hoa
                have ho : objInsert o0 "overall_score"
                    (.num (round2 (t * (1/2 : ℚ) + f * (3/10 : ℚ) + c * (1/5 : ℚ)))) = o := by
                  injection this
                rw [← ho, lookup_objInsert]
                rfl
      | str s0 =>
        rw [show pyIn "overall_score" (Json.str s0)
            = .ok (pyInStr "overall_score" s0) from rfl, bindOk] at hok
        cases hy : pyInStr "overall_score" s0 with
        | true =>
          rw [hy] at hok
          simp only [if_true] at hok
          have hkvs : kvs0 = kvs := by simpa [pureOk] using hok
          rw [← hkvs, hx] at hoa
          simp at hoa
        | false =>
          rw [hy] at hok
          simp only [Bool.false_eq_true, if_false] at hok
          cases hts : sectionScore (Json.obj kvs0) "technical_evaluation" with
          | error e => rw [hts, bindErr] at hok; cases hok
          | ok t =>
            rw [hts, bindOk] at hok
            cases hfs : sectionScore (Json.obj kvs0) "financial_evaluation" with
            | error e => rw [hfs, bindErr] at hok; cases hok
            | ok f =>
              rw [hfs, bindOk] at hok
              cases hcs : sectionScore (Json.obj kvs0) "compliance_evaluation" with
              | error e => rw [hcs, bindErr] at hok; cases hok
              | ok c =>
                rw [hcs, bindOk] at hok
                rw [show ∀ x, pySetItem (Json.str s0) "overall_score" x
                    = .error "TypeError: item assignment" from fun x => rfl, bindErr] at hok
                cases hok
      | arr xs =>
        rw [show pyIn "overall_score" (Json.arr xs)
            = .ok (xs.any fun j => match j with | .str t => t == "overall_score" | _ => false)
            from rfl, bindOk] at hok
        cases hy : (xs.any fun j => match j with | .str t => t == "overall_score" | _ => false) with
        | true =>
          rw [hy] at hok
          simp only [if_true] at hok
          have hkvs : kvs0 = kvs := by simpa [pureOk] using hok
          rw [← hkvs, hx] at hoa
          simp at hoa
        | false =>
          rw [hy] at hok
          simp only [Bool.false_eq_true, if_false] at hok
          cases hts : sectionScore (Json.obj kvs0) "technical_evaluation" with
          | error e => rw [hts, bindErr] at hok; cases hok
          | ok t =>
            rw [hts, bindOk] at hok
            cases hfs : sectionScore (Json.obj kvs0) "financial_evaluation" with
            | error e => rw [hfs, bindErr] at hok; cases hok
            | ok f =>
              rw [hfs, bindOk] at hok
              cases hcs : sectionScore (Json.obj kvs0) "compliance_evaluation" with
              | error e => rw [hcs, bindErr] at hok; cases hok
              | ok c =>
                rw [hcs, bindOk] at hok
                rw [show ∀ x, pySetItem (Json.arr xs) "overall_score" x
                    = .error "TypeError: item assignment" from fun x => rfl, bindErr] at hok
                cases hok
      | null => rw [show pyIn "overall_score" Json.null
          = .error "TypeError: argument is not iterable" from rfl, bindErr] at hok; cases hok
      | bool b => rw [show pyIn "overall_score" (Json.bool b)
          = .error "TypeError: argument is not iterable" from rfl, bindErr] at hok; cases hok
      | num q => rw [show pyIn "overall_score" (Json.num q)
          = .error "TypeError: argument is not iterable" from rfl, bindErr] at hok; cases hok
  | str s0 =>
    unfold postProcess at hok
    rw [show pyIn "overall_assessment" (Json.str s0)
        = .ok (pyInStr "overall_assessment" s0) from rfl, bindOk] at hok
    cases hy : pyInStr "overall_assessment" s0 with
    | true =>
      rw [hy] at hok
      simp only [if_true] at hok
      rw [show pyIndex (Json.str s0) "overall_assessment"
          = .error "TypeError: indices must be integers" from rfl, bindErr] at hok
      cases hok
    | false =>
      rw [hy] at hok
      simp only [Bool.false_eq_true, if_false] at hok
      simp [pureOk] at hok
  | arr xs =>
    unfold postProcess at hok
    rw [show pyIn "overall_assessment" (Json.arr xs)
        = .ok (xs.any fun j => match j with | .str t => t == "overall_assessment" | _ => false)
        from rfl, bindOk] at hok
    cases hy : (xs.any fun j => match j with | .str t => t == "overall_assessment" | _ => false) with
    | true =>
      rw [hy] at hok
      simp only [if_true] at hok
      rw [show pyIndex (Json.arr xs) "overall_assessment"
          = .error "TypeError: indices must be integers" from rfl, bindErr] at hok
      cases hok
    | false =>
      rw [hy] at hok
      simp only [Bool.false_eq_true, if_false] at hok
      simp [pureOk] at hok
  | null =>
    unfold postProcess at hok
    rw [show pyIn "overall_assessment" Json.null
        = .error "TypeError: argument is not iterable" from rfl, bindErr] at hok
    cases hok
  | bool b =>
    unfold postProcess at hok
    rw [show pyIn "overall_assessment" (Json.bool b)
        = .error "TypeError: argument is not iterable" from rfl, bindErr] at hok
    cases hok
  | num q =>
    unfold postProcess at hok
    rw [show pyIn "overall_assessment" (Json.num q)
        = .error "TypeError: argument is not iterable" from rfl, bindErr] at hok
    cases hok

/-- Counterexample to claim C2: the oracle text "\x7b\x7d" decodes
successfully to an empty dict, `_parse_evaluation` returns it unchanged, and
the returned record has no `overall_assessment` and no overall score at all
— so it is not true that every returned record contains an overall score. -/
theorem parse_evaluation_missing_overall_counterexample :
    parse_evaluation "\x7b\x7d" = .ok (Json.obj []) ∧
    getKey (Json.obj []) "overall_assessment" = none ∧
    getPath (Json.obj []) "overall_assessment" "overall_score" = none :=
  ⟨rfl, rfl, rfl⟩

/-- Claim C2 (amended): the returned record contains an overall score in the
oracle-supplied, fallback-inserted and degraded cases — precisely, whenever
the returned dict has an `overall_assessment` dict at all, that dict has an
`overall_score` key, and on decode failure the degraded record carries
`overall_score = 0`; but when the decoded answer lacks `overall_assessment`
(e.g. "\x7b\x7d") the record is returned without any overall field. -/
theorem parse_evaluation_overall_presence (s : String) :
    (∀ (kvs o : List (String × Json)), parse_evaluation s = .ok (.obj kvs) →
      List.lookup "overall_assessment" kvs = some (.obj o) →
      (List.lookup "overall_score" o).isSome = true) ∧
    (∀ e, loads (cleanedText s) = .error e →
      parse_evaluation s = .ok (degradedResult s e) ∧
      getPath (degradedResult s e) "overall_assessment" "overall_score" = some (.num 0)) := by
  constructor
  · intro kvs o hok hoa
    cases hload : loads (cleanedText s) with
    | error e =>
      rw [parse_evaluation_of_decode_error s e hload] at hok
      have hkvs : [("technical_evaluation",
            Json.obj [("score", Json.num 0), ("key_findings", Json.str "Evaluation parsing failed")]),
          ("financial_evaluation",
            Json.obj [("score", Json.num 0), ("key_findings", Json.str "Evaluation parsing failed")]),
          ("compliance_evaluation",
            Json.obj [("score", Json.num 0), ("status", Json.str "fail")]),
          ("overall_assessment",
            Json.obj [("overall_score", Json.num 0), ("recommendation", Json.str "reject"),
              ("summary", Json.str ("Error parsing evaluation: " ++ e))]),
          ("raw_response", Json.str s)] = kvs := by
        simpa [degradedResult] using hok
      rw [← hkvs] at hoa
      have h4 : Json.obj [("overall_score", Json.num 0), ("recommendation", Json.str "reject"),
          ("summary", Json.str ("Error parsing evaluation: " ++ e))] = Json.obj o :=
        Option.some.inj hoa
      have h5 : [("overall_score", Json.num 0), ("recommendation", Json.str "reject"),
          ("summary", Json.str ("Error parsing evaluation: " ++ e))] = o := by
        injection h4
      rw [← h5]
      rfl
    | ok v =>
      rw [parse_evaluation_of_decode_ok s v hload] at hok
      exact postProcess_preserves_overall v kvs o hok hoa
  · intro e he
    exact ⟨parse_evaluation_of_decode_error s e he, rfl⟩

/-- Witness for the amended C2 theorem: an oracle-supplied overall score is
kept, and an undecodable text gets the degraded record with a zero overall
score. -/
theorem parse_evaluation_overall_presence_witness :
    (List.lookup "overall_score" [("overall_score", Json.str "high")]).isSome = true ∧
    parse_evaluation "oops" = .ok (degradedResult "oops" "Expecting value") ∧
    getPath (degradedResult "oops" "Expecting value") "overall_assessment" "overall_score" =
      some (.num 0) :=
  ⟨(parse_evaluation_overall_presence
      "\x7b\"overall_assessment\":\x7b\"overall_score\":\"high\"\x7d\x7d").1
      [("overall_assessment", Json.obj [("overall_score", Json.str "high")])]
      [("overall_score", Json.str "high")] rfl rfl,
   ((parse_evaluation_overall_presence "oops").2 "Expecting value" rfl).1,
   ((parse_evaluation_overall_presence "oops").2 "Expecting value" rfl).2⟩

/-! ## Claim C7 -/

/-- Specification-side grouping: the documents of one `document_type`, in
upload order, each truncated by `entryOf`. -/
def docsOfType (ty : String) (documents : List PyDoc) : List DocEntry :=
  (documents.filter fun d => docType d == ty).map entryOf

/-- Looking a key up after mapping the "append to this group" step: the
looked-up value gains the entry exactly when the key is the updated one. -/
theorem lookup_map_append_entry (acc : List (String × List DocEntry)) (ty' : String)
    (e : DocEntry) (ty : String) :
    List.lookup ty (acc.map fun p => if p.1 == ty' then (p.1, p.2 ++ [e]) else p) =
      Option.map (fun l => if ty = ty' then l ++ [e] else l) (List.lookup ty acc) := by
  induction acc with
  | nil => rfl
  | cons p rest ih =>
    obtain ⟨k, v⟩ := p
    simp only [List.map_cons]
    by_cases h1 : ty = k
    · have hk : (ty == k) = true := by simpa using h1
      by_cases h0 : k = ty'
      · have hty : ty = ty' := h1.trans h0
        rw [if_pos (show (k == ty') = true by simpa using h0)]
        simp only [List.lookup_cons, hk]
        simp [hty]
      · have hty : ¬ ty = ty' := fun h => h0 (h1 ▸ h)
        rw [if_neg (show ¬ (k == ty') = true by simpa using h0)]
        simp only [List.lookup_cons, hk]
        simp [hty]
    · have hk : (ty == k) = false := by simpa using h1
      by_cases h0 : k = ty'
      · rw [if_pos (show (k == ty') = true by simpa using h0)]
        simp only [List.lookup_cons, hk]
        exact ih
      · rw [if_neg (show ¬ (k == ty') = true by simpa using h0)]
        simp only [List.lookup_cons, hk]
        exact ih

/-- Effect of one `addToGroup` step on one group. -/
theorem lookup_addToGroup (acc : List (String × List DocEntry)) (ty' : String)
    (e : DocEntry) (ty : String) :
    (List.lookup ty (addToGroup acc ty' e)).getD [] =
      (List.lookup ty acc).getD [] ++ (if ty = ty' then [e] else []) := by
  unfold addToGroup
  by_cases hc : acc.any (fun p => p.1 == ty')
  · rw [if_pos hc, lookup_map_append_entry]
    by_cases hty : ty = ty'
    · subst hty
      obtain ⟨l, hl⟩ : ∃ l, List.lookup ty acc = some l := by
        rw [← Option.isSome_iff_exists, List.lookup_isSome_iff]
        simp only [List.any_eq_true] at hc
        obtain ⟨p, hp, hpk⟩ := hc
        exact ⟨p, hp, by simp [eq_of_beq hpk]⟩
      rw [hl]
      simp
    · cases List.lookup ty acc <;> simp [hty]
  · rw [if_neg hc, List.lookup_append]
    by_cases hty : ty = ty'
    · subst hty
      have hnone : List.lookup ty acc = none := by
        rw [List.lookup_eq_none_iff]
        intro p hp
        simp only [List.any_eq_true, not_exists, not_and] at hc
        have h5 : ¬ (p.1 == ty) = true := hc p hp
        simp only [bne_iff_ne, ne_eq]
        exact fun h => h5 (by simp [← h])
      rw [hnone]
      simp [List.lookup_cons_self]
    · have h2 : List.lookup ty [(ty', [e])] = none := by
        rw [List.lookup_cons]
        have hk : (ty == ty') = false := by simpa using hty
        simp [hk]
      cases List.lookup ty acc <;> simp [h2, hty]

/-- Folding the grouping step appends each matching document, in order, to
its group. -/
theorem lookup_prepare_aux (documents : List PyDoc) : ∀ (acc : List (String × List DocEntry))
    (ty : String),
    (List.lookup ty
      (documents.foldl (fun acc doc => addToGroup acc (docType doc) (entryOf doc)) acc)).getD [] =
      (List.lookup ty acc).getD [] ++ docsOfType ty documents := by
  induction documents with
  | nil => intro acc ty; simp [docsOfType]
  | cons d ds ih =>
    intro acc ty
    rw [List.foldl_cons, ih, lookup_addToGroup, List.append_assoc]
    congr 1
    unfold docsOfType
    rw [List.filter_cons]
    by_cases h : docType d = ty
    · simp [h]
    · have hk : (docType d == ty) = false := by simpa using h
      have hn : ¬ ty = docType d := fun hh => h hh.symm
      simp [hk, hn]

/-- Claim C7: `_prepare_documents` considers only the first 5000 characters
of each document's text and groups documents by `document_type`, preserving
upload order within each group; `_format_documents` then caps each rendered
excerpt at 2000 characters of content plus the fixed "..." marker, so a
longer document's visible excerpt is at most 2000 characters plus the
marker. -/
theorem prepare_format_documents_spec (documents : List PyDoc) (ty : String) :
    (List.lookup ty (prepare_documents documents)).getD [] = docsOfType ty documents ∧
    (∀ e ∈ docsOfType ty documents, e.content.length ≤ 5000) ∧
    (∀ e : DocEntry, ∃ excerpt,
      renderDoc e = "\n**File: " ++ pyStrOpt e.filename ++ "**\n" ++ excerpt ++ "...\n" ∧
      excerpt.length ≤ 2000) := by
  refine ⟨?_, ?_, ?_⟩
  · unfold prepare_documents
    rw [lookup_prepare_aux documents [] ty]
    rfl
  · intro e he
    unfold docsOfType at he
    rw [List.mem_map] at he
    obtain ⟨d, _, hd⟩ := he
    rw [← hd]
    show (pyTake 5000 (d.extracted_text.getD "")).length ≤ 5000
    show ((d.extracted_text.getD "").toList.take 5000).length ≤ 5000
    rw [List.length_take]
    exact min_le_left _ _
  · intro e
    refine ⟨pyTake 2000 e.content, rfl, ?_⟩
    show (e.content.toList.take 2000).length ≤ 2000
    rw [List.length_take]
    exact min_le_left _ _

/-- Documents used by the C7 witness: two technical uploads and one
financial upload. -/
def c7Docs : List PyDoc :=
  [ ⟨some "technical", some "t1.pdf", some "first technical document", none⟩,
    ⟨some "financial", some "f1.xlsx", some "financial statement", none⟩,
    ⟨some "technical", some "t2.docx", some "second technical document", none⟩ ]

/-- Witness for C7: the "technical" group lists the two technical documents
in upload order, the sampled entry respects the 5000-character bound, and
its rendered excerpt respects the 2000-character bound. -/
theorem prepare_format_documents_spec_witness :
    (List.lookup "technical" (prepare_documents c7Docs)).getD [] = docsOfType "technical" c7Docs ∧
    (⟨some "t1.pdf", "first technical document", Json.obj []⟩ : DocEntry) ∈
      docsOfType "technical" c7Docs ∧
    (⟨some "t1.pdf", "first technical document", Json.obj []⟩ : DocEntry).content.length ≤ 5000 ∧
    (∃ excerpt, renderDoc ⟨some "t1.pdf", "first technical document", Json.obj []⟩ =
      "\n**File: " ++ pyStrOpt (some "t1.pdf") ++ "**\n" ++ excerpt ++ "...\n" ∧
      excerpt.length ≤ 2000) :=
  ⟨(prepare_format_documents_spec c7Docs "technical").1,
   List.mem_cons_self _ _,
   (prepare_format_documents_spec c7Docs "technical").2.1 _ (List.mem_cons_self _ _),
   (prepare_format_documents_spec c7Docs "technical").2.2 _⟩
